import Mathlib

/-!
Verification development for the msk-bot coordinate pipeline (src/bot.py).

The Python source is shallowly embedded below.  Numeric values (Python
floats) are modelled as exact rationals; Python exceptions raised inside
the parsing pipeline are modelled with `Except Unit`; Python `None` and
falsy checks on optional user-data fields are modelled with `Option`.
Character classes of the regular expressions `NUM_RE` and `DMS_LINE_RE`
are modelled over the ASCII/latin repertoire the program works with, with
Python regex scanning (leftmost, greedy, non-overlapping `findall`)
implemented as executable character scanners.  The two regexes have the
property that every quantified class is disjoint from the class that must
follow it, so greedy maximal-munch scanning coincides with the
backtracking semantics.  Recursions that consume a suffix of the input
carry an explicit fuel bounded by the input length so that all
definitions compute by kernel reduction.
-/

deriving instance DecidableEq for Except

/-- The whitespace characters recognised by Python `str.strip`, `str.splitlines`
and the regex class backslash-s, restricted to the core ASCII repertoire. -/
def isPySpace (c : Char) : Bool :=
  c == ' ' || c == '\t' || c == '\n' || c == '\r' || c == Char.ofNat 11 || c == Char.ofNat 12

/-- Helper for `splitLines`: accumulates the current line (reversed). -/
def splitLinesAux : List Char → List Char → List (List Char)
  | '\r' :: '\n' :: rest, acc => acc.reverse :: splitLinesAux rest []
  | '\n' :: rest, acc => acc.reverse :: splitLinesAux rest []
  | '\r' :: rest, acc => acc.reverse :: splitLinesAux rest []
  | c :: rest, acc => splitLinesAux rest (c :: acc)
  | [], acc => if acc.isEmpty then [] else [acc.reverse]

/-- Python `str.splitlines`: split on line breaks, no trailing empty line
for a trailing terminator. -/
def splitLines (l : List Char) : List (List Char) := splitLinesAux l []

/-- Python `str.strip()` with no argument: drop leading and trailing whitespace. -/
def pyStrip (l : List Char) : List Char :=
  ((l.dropWhile isPySpace).reverse.dropWhile isPySpace).reverse

/-- Value of a list of decimal digit characters, most significant first. -/
def digitsToNat (l : List Char) : Nat :=
  l.foldl (fun a c => 10 * a + (c.toNat - 48)) 0

/-- Python `float()` on the token shapes produced by the two regexes:
an optional sign followed by digits and at most one decimal point, with
at least one digit.  Returns `none` where Python raises `ValueError`
(for example on "3.4.5" or "."). -/
def strToRat (l : List Char) : Option ℚ :=
  let sb : ℚ × List Char :=
    match l with
    | c :: r => if c == '-' then (-1, r) else if c == '+' then (1, r) else (1, l)
    | [] => (1, l)
  let sgn := sb.1
  let body := sb.2
  if body.all (fun c => c.isDigit || c == '.') then
    let ip := body.takeWhile (fun c => c.isDigit)
    let rest := body.dropWhile (fun c => c.isDigit)
    match rest with
    | [] => if ip.isEmpty then none else some (sgn * (digitsToNat ip : ℚ))
    | _ :: frac =>
      if frac.all (fun c => c.isDigit) then
        if ip.isEmpty && frac.isEmpty then none
        else some (sgn * ((digitsToNat ip : ℚ) + (digitsToNat frac : ℚ) / (10 : ℚ) ^ frac.length))
      else none
  else none

/-- Source `_clean_num`: replace the comma decimal separator by a point and
parse as a float, `none` on failure. -/
def clean_num (l : List Char) : Option ℚ :=
  strToRat (l.map (fun c => if c == ',' then '.' else c))

/-- One match of the body of `NUM_RE` (digits, optional fractional part with
point or comma) at the head of the input; returns the token and the rest. -/
def numBody (l : List Char) : Option (List Char × List Char) :=
  let ds := l.takeWhile (fun c => c.isDigit)
  let r := l.dropWhile (fun c => c.isDigit)
  if ds.isEmpty then none
  else
    match r with
    | sep :: r2 =>
      if sep == '.' || sep == ',' then
        let ds2 := r2.takeWhile (fun c => c.isDigit)
        if ds2.isEmpty then some (ds, r)
        else some (ds ++ sep :: ds2, r2.dropWhile (fun c => c.isDigit))
      else some (ds, r)
    | [] => some (ds, [])

/-- One match of `NUM_RE` (with optional sign) at the head of the input. -/
def numToken (l : List Char) : Option (List Char × List Char) :=
  match l with
  | [] => none
  | c :: rest =>
    if c == '+' || c == '-' then
      match numBody rest with
      | some (t, r) => some (c :: t, r)
      | none => none
    else numBody l

/-- Fueled scanner for `NUM_RE.findall`. -/
def numFindAllAux : Nat → List Char → List (List Char)
  | 0, _ => []
  | fuel + 1, l =>
    match numToken l with
    | some (t, r) => t :: numFindAllAux fuel r
    | none =>
      match l with
      | [] => []
      | _ :: rest => numFindAllAux fuel rest

/-- Python `NUM_RE.findall`: all non-overlapping numeric tokens, left to right. -/
def numFindAll (l : List Char) : List (List Char) := numFindAllAux (l.length + 1) l

/-- Character class after the degrees group of `DMS_LINE_RE`. -/
def isDegSep (c : Char) : Bool := c == '°' || c == '-' || c == 'd' || isPySpace c

/-- Character class after the minutes group of `DMS_LINE_RE` (apostrophe,
hyphen, letter m or whitespace). -/
def isMinSep (c : Char) : Bool := c == Char.ofNat 39 || c == '-' || c == 'm' || isPySpace c

/-- Character class of the seconds group of `DMS_LINE_RE`. -/
def isSecChar (c : Char) : Bool := c.isDigit || c == '.'

/-- The optional hemisphere letter class of `DMS_LINE_RE`. -/
def isHemiLetter (c : Char) : Bool :=
  c == 'N' || c == 'S' || c == 'E' || c == 'W' || c == 'n' || c == 's' || c == 'e' || c == 'w'

/-- The four captured groups of one `DMS_LINE_RE` match. -/
structure DmsGroup where
  deg : List Char
  mins : List Char
  secs : List Char
  hemi : List Char
deriving DecidableEq, Repr

/-- The degrees group: an optional sign followed by at least one digit. -/
def signedIntToken (l : List Char) : Option (List Char × List Char) :=
  match l with
  | [] => none
  | c :: rest =>
    if c == '+' || c == '-' then
      let ds := rest.takeWhile (fun x => x.isDigit)
      if ds.isEmpty then none else some (c :: ds, rest.dropWhile (fun x => x.isDigit))
    else
      let ds := l.takeWhile (fun x => x.isDigit)
      if ds.isEmpty then none else some (ds, l.dropWhile (fun x => x.isDigit))

/-- One match of `DMS_LINE_RE` at the head of the input: degrees, a degree
separator run, minutes, a minute separator run, seconds, an optional second
mark (double quote or letter s), optional whitespace and an optional
hemisphere letter. -/
def dmsMatch (l : List Char) : Option (DmsGroup × List Char) :=
  match signedIntToken l with
  | none => none
  | some (g1, l1) =>
    if (l1.takeWhile isDegSep).isEmpty then none
    else
      let l2 := l1.dropWhile isDegSep
      let g2 := l2.takeWhile (fun c => c.isDigit)
      if g2.isEmpty then none
      else
        let l3 := l2.dropWhile (fun c => c.isDigit)
        if (l3.takeWhile isMinSep).isEmpty then none
        else
          let l4 := l3.dropWhile isMinSep
          let g3 := l4.takeWhile isSecChar
          if g3.isEmpty then none
          else
            let l5 := l4.dropWhile isSecChar
            let l6 :=
              match l5 with
              | c :: r => if c == Char.ofNat 34 || c == 's' then r else l5
              | [] => l5
            let l7 := l6.dropWhile isPySpace
            match l7 with
            | c :: r =>
              if isHemiLetter c then some (⟨g1, g2, g3, [c]⟩, r)
              else some (⟨g1, g2, g3, []⟩, l7)
            | [] => some (⟨g1, g2, g3, []⟩, [])

/-- Fueled scanner for `DMS_LINE_RE.findall`. -/
def dmsFindAllAux : Nat → List Char → List DmsGroup
  | 0, _ => []
  | fuel + 1, l =>
    match dmsMatch l with
    | some (g, r) => g :: dmsFindAllAux fuel r
    | none =>
      match l with
      | [] => []
      | _ :: rest => dmsFindAllAux fuel rest

/-- Python `DMS_LINE_RE.findall`: all non-overlapping group tuples, left to right. -/
def dmsFindAll (l : List Char) : List DmsGroup := dmsFindAllAux (l.length + 1) l

/-- Source `dms_to_dd` after its `float` conversions: absolute degrees plus
minutes over 60 plus seconds over 3600, negated when the degree value is
negative or the hemisphere letter upper-cases to S or W. -/
def dms_to_dd (d m s : ℚ) (hemi : List Char) : ℚ :=
  let dd := |d| + m / 60 + s / 3600
  if decide (d < 0) || hemi.map Char.toUpper == ['S'] || hemi.map Char.toUpper == ['W'] then
    -dd
  else dd

/-- The `float` conversions of `dms_to_dd` applied to one captured group;
`Except.error` models the `ValueError` Python raises on a malformed
seconds token such as "3.4.5". -/
def dmsGroupToDD (g : DmsGroup) : Except Unit ℚ :=
  match strToRat g.deg, strToRat g.mins, strToRat g.secs with
  | some d, some m, some s => Except.ok (dms_to_dd d m s g.hemi)
  | _, _, _ => Except.error ()

/-- Source `parse_dms_line`: if at least two groups match, convert the first
two into a point, otherwise return no point; a conversion error in either
group escapes, the first one first. -/
def parse_dms_line (l : List Char) : Except Unit (Option (ℚ × ℚ)) :=
  match dmsFindAll l with
  | g1 :: g2 :: _ =>
    match dmsGroupToDD g1, dmsGroupToDD g2 with
    | Except.ok x, Except.ok y => Except.ok (some (x, y))
    | Except.error e, _ => Except.error e
    | _, Except.error e => Except.error e
  | _ => Except.ok none

/-- The marker test of `parse_points_auto`: any of the characters degree
sign, apostrophe, double quote, d, m, s occurs in the line. -/
def hasDmsMarker (l : List Char) : Bool :=
  l.any (fun c =>
    c == '°' || c == Char.ofNat 39 || c == Char.ofNat 34 || c == 'd' || c == 'm' || c == 's')

/-- The plain-decimal step shared by the parsers: at least two numeric
tokens, both convert via `clean_num`, first two become the point. -/
def decFirstTwo (nums : List (List Char)) : Option (ℚ × ℚ) :=
  match nums with
  | n0 :: n1 :: _ =>
    match clean_num n0, clean_num n1 with
    | some x, some y => some (x, y)
    | _, _ => none
  | _ => none

/-- The body of the per-line loop of `parse_points_auto`: strip, skip empty
lines, attempt DMS when a marker is present or at least three numeric
tokens occur, otherwise (or when DMS yields no point) take the first two
numeric tokens. -/
def lineStep (raw : List Char) : Except Unit (Option (ℚ × ℚ)) :=
  let line := pyStrip raw
  if line.isEmpty then Except.ok none
  else
    let nums := numFindAll line
    if hasDmsMarker line ∨ 3 ≤ nums.length then
      match parse_dms_line line with
      | Except.error e => Except.error e
      | Except.ok (some pt) => Except.ok (some pt)
      | Except.ok none => Except.ok (decFirstTwo nums)
    else Except.ok (decFirstTwo nums)

/-- The per-line loop of `parse_points_auto` over the split lines, in order;
an exception in any line aborts the whole batch as in Python. -/
def linesPass : List (List Char) → Except Unit (List (ℚ × ℚ))
  | [] => Except.ok []
  | line :: rest => do
    let hd ← lineStep line
    let tl ← linesPass rest
    match hd with
    | some pt => Except.ok (pt :: tl)
    | none => Except.ok tl

/-- Source `parse_points_auto`: per-line pass, then, when it produced
nothing, one DMS attempt over the whole text followed by one plain-decimal
attempt over the whole text. -/
def parse_points_auto (text : List Char) : Except Unit (List (ℚ × ℚ)) := do
  let pts ← linesPass (splitLines text)
  if pts.isEmpty then
    match ← parse_dms_line text with
    | some pt => Except.ok [pt]
    | none => Except.ok (decFirstTwo (numFindAll text)).toList
  else Except.ok pts

/-- The per-line loop of `parse_points_from_text`: no stripping, no DMS,
first two numeric tokens of each line. -/
def fromTextPass : List (List Char) → List (ℚ × ℚ)
  | [] => []
  | line :: rest =>
    match decFirstTwo (numFindAll line) with
    | some pt => pt :: fromTextPass rest
    | none => fromTextPass rest

/-- Source `parse_points_from_text`: plain-decimal per-line pass with a
whole-text fallback; never raises. -/
def parse_points_from_text (text : List Char) : List (ℚ × ℚ) :=
  let pts := fromTextPass (splitLines text)
  if pts.isEmpty then (decFirstTwo (numFindAll text)).toList else pts

/-- Round a rational to the nearest integer, ties to even, as Python float
formatting does for the exactly representable values of this model. -/
def rheInt (q : ℚ) : ℤ :=
  let z : ℤ := Int.fdiv q.num (q.den : ℤ)
  let f : ℚ := q - (z : ℚ)
  if f < 1/2 then z
  else if 1/2 < f then z + 1
  else if z % 2 == 0 then z else z + 1

/-- Fueled decimal digit expansion of a natural number. -/
def natDigitsAux : Nat → Nat → List Char
  | 0, _ => []
  | fuel + 1, n =>
    if n < 10 then [Nat.digitChar n]
    else natDigitsAux fuel (n / 10) ++ [Nat.digitChar (n % 10)]

/-- Decimal digits of a natural number, most significant first. -/
def natDecimal (n : Nat) : List Char := natDigitsAux (n + 1) n

/-- Python `str` of a nonnegative integer. -/
def strNat (n : Nat) : String := String.mk (natDecimal n)

/-- Python `str` of an integer. -/
def strInt (z : ℤ) : String := (if z < 0 then "-" else "") ++ strNat z.natAbs

/-- The six fractional digits of a fixed-point rendering, zero padded. -/
def pad6 (k : Nat) : List Char :=
  (List.range 6).map (fun i => Nat.digitChar (k / 10 ^ (5 - i) % 10))

/-- The Python format specifier `.6f` applied to a rational: sign of the
value, integer part, point, exactly six fractional digits. -/
def fmt6 (x : ℚ) : String :=
  let m : ℤ := rheInt (x * 1000000)
  (if x < 0 then "-" else "") ++ strNat (m.natAbs / 1000000) ++ "." ++
    String.mk (pad6 (m.natAbs % 1000000))

/-- One data row of the inline table of `format_points_table`. -/
def rowStr (i : Nat) (x y : ℚ) : String := strNat i ++ ";" ++ fmt6 x ++ ";" ++ fmt6 y

/-- The data rows appended by the loop of `format_points_table`, starting
with 1-based index `i`. -/
def tableRows : List (ℚ × ℚ) → Nat → List String
  | [], _ => []
  | (x, y) :: rest, i => rowStr i x y :: tableRows rest (i + 1)

/-- Source `format_points_table`: header line then one line per point. -/
def format_points_table (points : List (ℚ × ℚ)) : String :=
  String.intercalate "\n" ("N;X;Y" :: tableRows points 1)

/-- The data rows written by the loop of `make_csv_bytes`, starting with
1-based index `i`; each row is the list of fields handed to the csv writer. -/
def csvDataRows : List (ℚ × ℚ) → Nat → List (List String)
  | [], _ => []
  | (x, y) :: rest, i => [strNat i, fmt6 x, fmt6 y] :: csvDataRows rest (i + 1)

/-- All rows handed to the csv writer of `make_csv_bytes`: the header row
then the data rows. -/
def csvRows (points : List (ℚ × ℚ)) : List (List String) :=
  ["N", "X", "Y"] :: csvDataRows points 1

/-- One serialized csv row: fields joined by the `;` delimiter and the csv
module default line terminator; no field of this writer ever needs quoting. -/
def csvLine (fields : List String) : String := String.intercalate ";" fields ++ "\r\n"

/-- Serialization of a row list by the csv writer, row by row. -/
def csvWrite : List (List String) → String
  | [] => ""
  | row :: rest => csvLine row ++ csvWrite rest

/-- The text written by the csv writer of `make_csv_bytes`. -/
def make_csv_string (points : List (ℚ × ℚ)) : String :=
  csvWrite (csvRows points)

/-- UTF-8 encoding of one character. -/
def utf8CharBytes (c : Char) : List Nat :=
  let n := c.toNat
  if n < 128 then [n]
  else if n < 2048 then [192 + n / 64, 128 + n % 64]
  else if n < 65536 then [224 + n / 4096, 128 + n / 64 % 64, 128 + n % 64]
  else [240 + n / 262144, 128 + n / 4096 % 64, 128 + n / 64 % 64, 128 + n % 64]

/-- UTF-8 encoding of a string. -/
def utf8Bytes (s : String) : List Nat := (s.data.map utf8CharBytes).flatten

/-- Source `make_csv_bytes`: the csv text encoded as utf-8-sig, which is
the three byte-order-marker bytes followed by the UTF-8 text. -/
def make_csv_bytes (points : List (ℚ × ℚ)) : List Nat :=
  [0xEF, 0xBB, 0xBF] ++ utf8Bytes (make_csv_string points)

/-- The characters kept by the filename substitution of
`do_transform_and_respond`: the regex class of word characters (modelled
over ASCII), hyphen and period. -/
def isFilenameKept (c : Char) : Bool := c.isAlphanum || c == '_' || c == '-' || c == '.'

/-- The `safe_name` substitution of `do_transform_and_respond`: every
character outside the kept class becomes an underscore. -/
def safe_name (hint : String) : String :=
  String.mk (hint.data.map (fun c => if isFilenameKept c then c else '_'))

/-- The output filename assigned to the generated csv document. -/
def outputFilename (hint : String) : String := safe_name hint ++ "_converted.csv"

/-- The per-user wizard fields stored in `context.user_data`; `none` models
an absent key. -/
structure Session where
  coords_src : Option String := none
  coords_src_label : Option String := none
  coords_dst : Option String := none
  coords_dst_label : Option String := none
  coords_out_mode : Option String := none
  coords_out_mode_code : Option String := none
  awaiting : Option String := none
deriving DecidableEq, Repr

/-- Python truthiness of an optional string field: an absent key and the
empty string are falsy. -/
def truthy : Option String → Bool
  | none => false
  | some s => !(s == "")

/-- Observable outcome of `handle_text`; branches of the handler that do
not touch the coordinate pipeline (cadastre lookup and expert chat) are
collapsed into markers. -/
inductive TextAction where
  | configMissing
  | noCoords
  | transform (pts : List (ℚ × ℚ))
  | parseCrash
  | cadastrePath
  | expertPath
deriving DecidableEq, Repr

/-- Source `handle_text` for a text message: the coordinate branch checks
the three configuration fields, then parses and either reports no
coordinates or hands the batch to the transform stage; an exception from
the parser escapes the handler. -/
def handle_text (st : Session) (text : String) : TextAction :=
  if st.awaiting = some "coords_input" ∨ st.awaiting = some "coords_manual" then
    if !truthy st.coords_src || !truthy st.coords_dst || !truthy st.coords_out_mode_code then
      TextAction.configMissing
    else
      match parse_points_auto text.data with
      | Except.error _ => TextAction.parseCrash
      | Except.ok [] => TextAction.noCoords
      | Except.ok pts => TextAction.transform pts
  else if st.awaiting = some "cad_manual" then TextAction.cadastrePath
  else TextAction.expertPath

/-- Observable outcome of `handle_document` once the file text has been
downloaded and decoded (the size and decode guards are I/O and outside
the claims). -/
inductive DocAction where
  | notAwaiting
  | configMissing
  | noPoints
  | transform (pts : List (ℚ × ℚ))
deriving DecidableEq, Repr

/-- Source `handle_document`: only accepted while a coordinate file is
awaited and fully configured; the decoded text goes to
`parse_points_from_text`, never to the DMS-aware parser. -/
def handle_document (st : Session) (text : String) : DocAction :=
  if ¬ st.awaiting = some "coords_file" then DocAction.notAwaiting
  else if !truthy st.coords_src || !truthy st.coords_dst || !truthy st.coords_out_mode_code then
    DocAction.configMissing
  else
    match parse_points_from_text text.data with
    | [] => DocAction.noPoints
    | pts => DocAction.transform pts

/-- Observable outcome of `handle_photo` once the recognition collaborator
has returned its text. -/
inductive PhotoAction where
  | notAwaiting
  | surfaceOnly
  | surfaceAndTransform (pts : List (ℚ × ℚ))
  | cadPhotoPath
deriving DecidableEq, Repr

/-- Source `handle_photo` on the recognized text: the coordinate branch
always surfaces the recognized text, and additionally transforms exactly
when points parsed, no doubtful character occurred and the configuration
is complete. -/
def handle_photo (st : Session) (recognized : String) : PhotoAction :=
  if ¬ (st.awaiting = some "coords_photo" ∨ st.awaiting = some "cad_photo") then
    PhotoAction.notAwaiting
  else if st.awaiting = some "coords_photo" then
    let hasDoubt := recognized.data.any (fun c => c == '?')
    let pts := parse_points_from_text recognized.data
    if ¬ pts = [] ∧ hasDoubt = false ∧
        (truthy st.coords_src ∧ truthy st.coords_dst ∧ truthy st.coords_out_mode_code) then
      PhotoAction.surfaceAndTransform pts
    else PhotoAction.surfaceOnly
  else PhotoAction.cadPhotoPath

/-- The reply text of the zone branch of `on_button` when the zone is out
of range. -/
def zoneRejectText : String := "Зона должна быть 1..60."

/-- The zone branch of `on_button` (callback data `coords:zone:kind:z`):
returns the updated session and the reply text.  A zone outside 1..60 is
rejected and nothing is stored; otherwise the realized EPSG identifier
and the zone label are stored under the source or destination field. -/
def on_button_zone (st : Session) (kind : String) (z : ℤ) : Session × String :=
  if z < 1 ∨ 60 < z then (st, zoneRejectText)
  else
    let epsg := "EPSG:" ++ strInt (28400 + z)
    let label := "СК-42 ГК зона " ++ strInt z
    let st2 :=
      if kind = "src" then
        { st with coords_src := some epsg, coords_src_label := some label }
      else
        { st with coords_dst := some epsg, coords_dst_label := some label }
    (st2, "✅ Зона " ++ strInt z ++ " сохранена.")

/-- The readiness gate of `on_button` (callback data `coords:ready`):
true exactly when all three configuration fields are truthy, in which
case the handler starts awaiting coordinate input. -/
def on_button_ready_ok (st : Session) : Bool :=
  truthy st.coords_src && truthy st.coords_dst && truthy st.coords_out_mode_code

/-- One per-user record of the usage store `usage.json`. -/
structure UsageRec where
  date : String
  count : Nat
  total : Nat
deriving DecidableEq, Repr

/-- The daily request limit of the bot. -/
def DAILY_LIMIT : Nat := 20

/-- Python dict get on the JSON usage store, modelled as an association
list with at most one binding per key. -/
def dictGet : List (String × UsageRec) → String → Option UsageRec
  | [], _ => none
  | (k, v) :: t, key => if k = key then some v else dictGet t key

/-- Python dict item assignment on the usage store: replace the binding of
the key, or append one. -/
def dictSet : List (String × UsageRec) → String → UsageRec → List (String × UsageRec)
  | [], key, v => [(key, v)]
  | (k, w) :: t, key, v => if k = key then (key, v) :: t else (k, w) :: dictSet t key v

/-- The record `check_and_increment` works on after the date check: a
fresh or stale record restarts the day at zero, keeping the accumulated
total. -/
def usageDayRec (r0 : Option UsageRec) (today : String) : UsageRec :=
  match r0 with
  | none => ⟨today, 0, 0⟩
  | some r => if ¬ r.date = today then ⟨today, 0, r.total⟩ else r

/-- Source `check_and_increment`: returns `(allowed, used, limit)` and the
usage store after the call.  A denied check stores nothing. -/
def check_and_increment (usage : List (String × UsageRec)) (key today : String) :
    (Bool × Nat × Nat) × List (String × UsageRec) :=
  let r0 := dictGet usage key
  let total := match r0 with | none => 0 | some r => r.total
  let ud := usageDayRec r0 today
  if DAILY_LIMIT ≤ ud.count then ((false, ud.count, DAILY_LIMIT), usage)
  else
    let ud2 : UsageRec := ⟨ud.date, ud.count + 1, total + 1⟩
    ((true, ud2.count, DAILY_LIMIT), dictSet usage key ud2)

/-- Source `get_usage`: `(used, limit)` without changing the store; a
record from another day reads as zero. -/
def get_usage (usage : List (String × UsageRec)) (key today : String) : Nat × Nat :=
  match dictGet usage key with
  | none => (0, DAILY_LIMIT)
  | some r => if ¬ r.date = today then (0, DAILY_LIMIT) else (r.count, DAILY_LIMIT)

theorem digitChar_isDigit (d : Nat) (h : d < 10) : (Nat.digitChar d).isDigit = true := by
  interval_cases d <;> decide

theorem isDigit_not_dot (c : Char) (h : c.isDigit = true) : (c == '.') = false := by
  cases hc : c == '.' with
  | false => rfl
  | true =>
    have hcc := eq_of_beq hc
    subst hcc
    exact absurd h (by decide)

theorem natDigitsAux_all_digits (fuel : Nat) :
    ∀ n : Nat, (natDigitsAux fuel n).all Char.isDigit = true := by
  induction fuel with
  | zero => intro n; rfl
  | succ f ih =>
    intro n
    simp only [natDigitsAux]
    by_cases h : n < 10
    · simp [h, digitChar_isDigit n h]
    · simp [h, List.all_append, ih (n / 10), digitChar_isDigit (n % 10) (Nat.mod_lt _ (by norm_num))]

theorem pad6_length (k : Nat) : (pad6 k).length = 6 := by
  simp [pad6]

theorem pad6_all_digits (k : Nat) : (pad6 k).all Char.isDigit = true := by
  simp only [pad6, List.all_eq_true, List.mem_map, List.mem_range]
  rintro c ⟨i, hi, rfl⟩
  exact digitChar_isDigit _ (Nat.mod_lt _ (by norm_num))

theorem fmt6_shape (q : ℚ) :
    ∃ ip fr : String, fmt6 q = ip ++ "." ++ fr ∧ fr.length = 6 ∧
      fr.data.all Char.isDigit = true ∧ ip.data.all (fun c => !(c == '.')) = true := by
  refine ⟨(if q < 0 then "-" else "") ++ strNat ((rheInt (q * 1000000)).natAbs / 1000000),
          String.mk (pad6 ((rheInt (q * 1000000)).natAbs % 1000000)), rfl,
          pad6_length _, pad6_all_digits _, ?_⟩
  rw [List.all_eq_true]
  intro c hc
  rw [String.data_append] at hc
  rcases List.mem_append.mp hc with h1 | h2
  · by_cases hq : q < 0
    · simp [hq] at h1
      subst h1
      decide
    · simp [hq] at h1
  · have hd : c.isDigit = true := by
      have hall := natDigitsAux_all_digits ((rheInt (q * 1000000)).natAbs / 1000000 + 1)
        ((rheInt (q * 1000000)).natAbs / 1000000)
      exact List.all_eq_true.mp hall c h2
    simp [isDigit_not_dot c hd]

theorem tableRows_length (pts : List (ℚ × ℚ)) : ∀ n : Nat, (tableRows pts n).length = pts.length := by
  induction pts with
  | nil => intro n; rfl
  | cons hd tl ih =>
    intro n
    cases hd
    simp [tableRows, ih]

theorem csvDataRows_length (pts : List (ℚ × ℚ)) :
    ∀ n : Nat, (csvDataRows pts n).length = pts.length := by
  induction pts with
  | nil => intro n; rfl
  | cons hd tl ih =>
    intro n
    cases hd
    simp [csvDataRows, ih]

theorem tableRows_getElem? (pts : List (ℚ × ℚ)) :
    ∀ n i : Nat, (tableRows pts n)[i]? = (pts[i]?).map (fun p => rowStr (n + i) p.1 p.2) := by
  induction pts with
  | nil => intro n i; simp [tableRows]
  | cons hd tl ih =>
    intro n i
    cases hd with
    | mk x y =>
      cases i with
      | zero => simp [tableRows]
      | succ j =>
        have h : n + 1 + j = n + (j + 1) := by omega
        simp only [tableRows, List.getElem?_cons_succ, ih (n + 1) j, h]

theorem csvDataRows_getElem? (pts : List (ℚ × ℚ)) :
    ∀ n i : Nat, (csvDataRows pts n)[i]? =
      (pts[i]?).map (fun p => [strNat (n + i), fmt6 p.1, fmt6 p.2]) := by
  induction pts with
  | nil => intro n i; simp [csvDataRows]
  | cons hd tl ih =>
    intro n i
    cases hd with
    | mk x y =>
      cases i with
      | zero => simp [csvDataRows]
      | succ j =>
        have h : n + 1 + j = n + (j + 1) := by omega
        simp only [csvDataRows, List.getElem?_cons_succ, ih (n + 1) j, h]

/-- Claim C1: for every batch of N transformed points, both output variants
(the inline chat table built by `format_points_table` and the csv rows
written by `make_csv_bytes`) produce exactly N data rows, in input order,
where row i carries the 1-based index i as column N and both coordinates
are rendered by `fmt6` with exactly six fractional digits. -/
theorem C1_render_rows (pts : List (ℚ × ℚ)) :
    (tableRows pts 1).length = pts.length ∧
    (csvDataRows pts 1).length = pts.length ∧
    (∀ i : Nat, (tableRows pts 1)[i]? = (pts[i]?).map (fun p => rowStr (i + 1) p.1 p.2)) ∧
    (∀ i : Nat, (csvDataRows pts 1)[i]? =
      (pts[i]?).map (fun p => [strNat (i + 1), fmt6 p.1, fmt6 p.2])) ∧
    (∀ q : ℚ, ∃ ip fr : String, fmt6 q = ip ++ "." ++ fr ∧ fr.length = 6 ∧
      fr.data.all Char.isDigit = true ∧ ip.data.all (fun c => !(c == '.')) = true) := by
  refine ⟨tableRows_length pts 1, csvDataRows_length pts 1, ?_, ?_, fmt6_shape⟩
  · intro i
    rw [tableRows_getElem? pts 1 i, Nat.add_comm 1 i]
  · intro i
    rw [csvDataRows_getElem? pts 1 i, Nat.add_comm 1 i]

unseal Rat.mul Rat.inv Rat.add Rat.sub in
/-- Claim C2: for every DMS group (degrees d, minutes m, seconds s,
optional hemisphere letter) converted by `dms_to_dd`, the result equals
the absolute degrees plus m over 60 plus s over 3600, negated exactly
when d is negative or the hemisphere letter denotes South or West; in
particular the DMS string for 40.5 degrees North is extracted by
`dmsFindAll` as one group that converts to exactly 81 over 2. -/
theorem C2_dms_value (d m s : ℚ) (hemi : List Char) :
    (dms_to_dd d m s hemi =
      if d < 0 ∨ hemi.map Char.toUpper = ['S'] ∨ hemi.map Char.toUpper = ['W'] then
        -(|d| + m / 60 + s / 3600)
      else |d| + m / 60 + s / 3600) ∧
    dmsFindAll "40 30 0 N".data = [⟨"40".data, "30".data, "0".data, "N".data⟩] ∧
    dmsGroupToDD ⟨"40".data, "30".data, "0".data, "N".data⟩ = Except.ok (81 / 2) := by
  refine ⟨?_, by decide, by decide⟩
  simp only [dms_to_dd]
  by_cases hd : d < 0
  · simp [hd]
  · by_cases hs : hemi.map Char.toUpper = ['S']
    · simp [hd, hs]
    · by_cases hw : hemi.map Char.toUpper = ['W']
      · simp [hd, hs, hw]
      · simp [hd, hs, hw]

/-- Claim C3: for every zone integer z with 1 ≤ z ≤ 60, `on_button_zone`
stores the realized identifier equal to the fixed base offset 28400 plus
z, formatted as an EPSG identifier string, together with a label
embedding z, in the selected source or destination field; for every z
outside 1..60 the request is rejected with the rejection reply, the
session is unchanged (no descriptor field stored) and the zone is not
clamped into range. -/
theorem C3_zone_selection (st : Session) (z : ℤ) :
    (1 ≤ z → z ≤ 60 →
      (on_button_zone st "src" z).1 =
        { st with coords_src := some ("EPSG:" ++ strInt (28400 + z)),
                  coords_src_label := some ("СК-42 ГК зона " ++ strInt z) } ∧
      (on_button_zone st "dst" z).1 =
        { st with coords_dst := some ("EPSG:" ++ strInt (28400 + z)),
                  coords_dst_label := some ("СК-42 ГК зона " ++ strInt z) }) ∧
    (z < 1 ∨ 60 < z →
      on_button_zone st "src" z = (st, zoneRejectText) ∧
      on_button_zone st "dst" z = (st, zoneRejectText)) := by
  constructor
  · intro h1 h2
    have hc : ¬ (z < 1 ∨ 60 < z) := by omega
    constructor <;> simp [on_button_zone, hc]
  · intro h
    constructor <;> simp [on_button_zone, h]

/-- Witness for C3 at zones 7 (stored), 65, 0 and 61 (rejected unchanged). -/
theorem C3_zone_selection_witness :
    (on_button_zone {} "src" 7).1 =
      { coords_src := some "EPSG:28407", coords_src_label := some "СК-42 ГК зона 7" } ∧
    on_button_zone {} "src" 65 = ({}, zoneRejectText) ∧
    on_button_zone {} "dst" 0 = ({}, zoneRejectText) ∧
    on_button_zone {} "src" 61 = ({}, zoneRejectText) := by
  refine ⟨?_, ?_, ?_, ?_⟩
  · rw [((C3_zone_selection {} 7).1 (by decide) (by decide)).1]
    decide
  · exact ((C3_zone_selection {} 65).2 (by omega)).1
  · exact ((C3_zone_selection {} 0).2 (by omega)).2
  · exact ((C3_zone_selection {} 61).2 (by omega)).1

/-- Claim C4: for every coordinate text submission (awaiting state
coords input or coords manual), if any of the three configuration fields
is unset, `handle_text` rejects the submission with the configuration
message and no transform is attempted, regardless of the submitted text. -/
theorem C4_wizard_gating (st : Session) (text : String)
    (hm : st.coords_src = none ∨ st.coords_dst = none ∨ st.coords_out_mode_code = none) :
    (st.awaiting = some "coords_input" ∨ st.awaiting = some "coords_manual" →
      handle_text st text = TextAction.configMissing) ∧
    on_button_ready_ok st = false := by
  have hcond : (!truthy st.coords_src || !truthy st.coords_dst ||
      !truthy st.coords_out_mode_code) = true := by
    rcases hm with h | h | h <;> simp [h, truthy]
  constructor
  · intro ha
    unfold handle_text
    rw [if_pos ha]
    simp [hcond]
  · unfold on_button_ready_ok
    rcases hm with h | h | h <;> simp [h, truthy]

/-- Witness for C4: a parseable text is still rejected, and the ready
button refuses, when the source system is unset. -/
theorem C4_wizard_gating_witness :
    handle_text
      ⟨none, none, some "EPSG:3857", some "lbl", some "Показать в чате", some "chat",
        some "coords_input"⟩
      "77.1 63.2" = TextAction.configMissing ∧
    on_button_ready_ok
      ⟨none, none, some "EPSG:3857", some "lbl", some "Показать в чате", some "chat",
        some "coords_input"⟩ = false :=
  ⟨(C4_wizard_gating _ "77.1 63.2" (Or.inl rfl)).1 (Or.inl rfl),
   (C4_wizard_gating
      ⟨none, none, some "EPSG:3857", some "lbl", some "Показать в чате", some "chat",
        some "coords_input"⟩
      "77.1 63.2" (Or.inl rfl)).2⟩

/-- Claim C5: for every recognition result on the photo channel, if the
recognized text contains the reserved placeholder character, `handle_photo`
never transforms automatically: in the coordinate-photo state the text is
only surfaced, and no state produces a transform action, even when the
remaining characters parse. -/
theorem C5_uncertainty_gating (st : Session) (recognized : String)
    (hq : '?' ∈ recognized.data) :
    (st.awaiting = some "coords_photo" → handle_photo st recognized = PhotoAction.surfaceOnly) ∧
    (∀ pts, ¬ handle_photo st recognized = PhotoAction.surfaceAndTransform pts) := by
  have hdoubt : recognized.data.any (fun c => c == '?') = true :=
    List.any_eq_true.mpr ⟨'?', hq, by simp⟩
  constructor
  · intro hA
    simp [handle_photo, hA, hdoubt]
  · intro pts
    by_cases h1 : st.awaiting = some "coords_photo" ∨ st.awaiting = some "cad_photo"
    · by_cases h2 : st.awaiting = some "coords_photo"
      · simp [handle_photo, h1, h2, hdoubt]
      · simp only [handle_photo, h1, h2]
        split <;> simp
    · simp [handle_photo, h1]

unseal Rat.mul Rat.inv Rat.add Rat.sub in
/-- Witness for C5: scenario D, a recognized text with doubtful digits is
surfaced only, although its confident characters would parse. -/
theorem C5_uncertainty_gating_witness :
    handle_photo
      ⟨some "EPSG:4326", some "lbl", some "EPSG:3857", some "lbl2", some "Показать в чате",
        some "chat", some "coords_photo"⟩
      "X=728533?5 Y=55166?" = PhotoAction.surfaceOnly ∧
    ¬ parse_points_from_text "X=728533?5 Y=55166?".data = [] := by
  constructor
  · exact (C5_uncertainty_gating _ "X=728533?5 Y=55166?" (by decide)).1 rfl
  · decide

theorem parse_dms_line_ok_iff (l : List Char) (x y : ℚ) :
    parse_dms_line l = Except.ok (some (x, y)) ↔
      ∃ g1 g2 rest, dmsFindAll l = g1 :: g2 :: rest ∧
        dmsGroupToDD g1 = Except.ok x ∧ dmsGroupToDD g2 = Except.ok y := by
  unfold parse_dms_line
  split
  next g1 g2 rest heq =>
    split
    next a b h1 h2 =>
      constructor
      · intro h
        simp only [Except.ok.injEq, Option.some.injEq, Prod.mk.injEq] at h
        obtain ⟨ha, hb⟩ := h
        subst ha
        subst hb
        exact ⟨g1, g2, rest, heq, h1, h2⟩
      · rintro ⟨g1x, g2x, restx, heqx, hx, hy⟩
        rw [heq] at heqx
        injection heqx with e1 e2
        injection e2 with e2 e3
        subst e1
        subst e2
        rw [h1] at hx
        rw [h2] at hy
        injection hx with hx1
        injection hy with hy1
        rw [hx1, hy1]
    next e h1 =>
      constructor
      · intro h
        exact absurd h (by simp)
      · rintro ⟨g1x, g2x, restx, heqx, hx, hy⟩
        rw [heq] at heqx
        injection heqx with e1 e2
        subst e1
        rw [h1] at hx
        exact absurd hx (by simp)
    next a e h2 h1 =>
      constructor
      · intro h
        exact absurd h (by simp)
      · rintro ⟨g1x, g2x, restx, heqx, hx, hy⟩
        rw [heq] at heqx
        injection heqx with e1 e2
        injection e2 with e2 e3
        subst e2
        rw [h2] at hy
        exact absurd hy (by simp)
  next h =>
    constructor
    · intro hcon
      exact absurd hcon (by simp)
    · rintro ⟨g1x, g2x, restx, heqx, hx, hy⟩
      exact (h _ _ _ heqx).elim

/-- Claim C6 (amended): per line, the DMS attempt is made exactly when a
marker character occurs or at least three numeric tokens occur; the
attempt yields a point exactly when at least two groups are found and the
first two convert, the point coming from the first two groups; when the
attempt returns no point the line falls back to the first two numeric
tokens. -/
theorem C6_line_parse (raw : List Char) :
    (∀ x y : ℚ, parse_dms_line (pyStrip raw) = Except.ok (some (x, y)) ↔
      ∃ g1 g2 rest, dmsFindAll (pyStrip raw) = g1 :: g2 :: rest ∧
        dmsGroupToDD g1 = Except.ok x ∧ dmsGroupToDD g2 = Except.ok y) ∧
    (¬ pyStrip raw = [] →
      (¬ (hasDmsMarker (pyStrip raw) = true ∨ 3 ≤ (numFindAll (pyStrip raw)).length) →
        lineStep raw = Except.ok (decFirstTwo (numFindAll (pyStrip raw)))) ∧
      ((hasDmsMarker (pyStrip raw) = true ∨ 3 ≤ (numFindAll (pyStrip raw)).length) →
        (∀ pt, parse_dms_line (pyStrip raw) = Except.ok (some pt) →
          lineStep raw = Except.ok (some pt)) ∧
        (parse_dms_line (pyStrip raw) = Except.ok none →
          lineStep raw = Except.ok (decFirstTwo (numFindAll (pyStrip raw)))))) ∧
    (∀ (n0 n1 : List Char) (rest2 : List (List Char)) (x y : ℚ),
      numFindAll (pyStrip raw) = n0 :: n1 :: rest2 →
      clean_num n0 = some x → clean_num n1 = some y →
      decFirstTwo (numFindAll (pyStrip raw)) = some (x, y)) := by
  have hne : ∀ l : List Char, ¬ l = [] → l.isEmpty = false := by
    intro l h
    cases l with
    | nil => exact absurd rfl h
    | cons a t => rfl
  refine ⟨fun x y => parse_dms_line_ok_iff (pyStrip raw) x y, ?_, ?_⟩
  · intro hs
    constructor
    · intro hnc
      simp only [lineStep, hne _ hs, Bool.false_eq_true, if_false, hnc, ite_false]
    · intro hc
      constructor
      · intro pt hdms
        simp only [lineStep, hne _ hs, Bool.false_eq_true, if_false, hc, ite_true, hdms]
      · intro hdms
        simp only [lineStep, hne _ hs, Bool.false_eq_true, if_false, hc, ite_true, hdms]
  · intro n0 n1 rest2 x y hnums hx hy
    rw [hnums]
    simp [decFirstTwo, hx, hy]

unseal Rat.mul Rat.inv Rat.add Rat.sub in
/-- Counterexample for C6 as stated: a line in which `dmsFindAll` finds
three groups (not exactly two) still yields a point, converted from the
first two groups. -/
theorem C6_counterexample :
    (dmsFindAll "1 2 3 4 5 6 7 8 9".data).length = 3 ∧
    ¬ (dmsFindAll "1 2 3 4 5 6 7 8 9".data).length = 2 ∧
    parse_dms_line "1 2 3 4 5 6 7 8 9".data =
      Except.ok (some (1241 / 1200, 817 / 200)) ∧
    lineStep "1 2 3 4 5 6 7 8 9".data =
      Except.ok (some (1241 / 1200, 817 / 200)) := by
  refine ⟨by decide, by decide, by decide, by decide⟩

unseal Rat.mul Rat.inv Rat.add Rat.sub in
/-- Witness for C6: scenario B line, where the DMS attempt applies and
yields the converted point. -/
theorem C6_line_parse_witness :
    lineStep "77 05 28  63 13 44".data = Except.ok (some (34691 / 450, 28453 / 450)) := by
  have h := ((C6_line_parse "77 05 28  63 13 44".data).2.1 (by decide)).2 (by decide)
  exact h.1 _ (by decide)

unseal Rat.mul Rat.inv Rat.add Rat.sub in
/-- Claim C7, evaluated at the failing input: on a line whose matched DMS
seconds token is malformed, `parse_points_auto` raises (models the
uncaught ValueError of float) instead of skipping the line, so
`handle_text` crashes instead of replying that no coordinates were
recognized. -/
theorem C7_crash_on_malformed_seconds :
    parse_points_auto "1 2 3.4.5 6 7 8".data = Except.error () ∧
    handle_text
      ⟨some "EPSG:4326", some "WGS84 (географические)", some "EPSG:3857",
        some "WebMercator (EPSG:3857)", some "Показать в чате", some "chat",
        some "coords_input"⟩
      "1 2 3.4.5 6 7 8" = TextAction.parseCrash ∧
    ¬ TextAction.parseCrash = TextAction.noCoords := by
  refine ⟨by decide, by decide, by decide⟩

theorem fromTextPass_length (lines : List (List Char)) :
    (fromTextPass lines).length ≤ lines.length := by
  induction lines with
  | nil => simp [fromTextPass]
  | cons l t ih =>
    cases h : decFirstTwo (numFindAll l) with
    | none =>
      simp only [fromTextPass, h, List.length_cons]
      exact Nat.le_succ_of_le ih
    | some pt =>
      simp only [fromTextPass, h, List.length_cons]
      exact Nat.succ_le_succ ih

theorem option_toList_length {α : Type} (o : Option α) : o.toList.length ≤ 1 := by
  cases o <;> simp

theorem parse_points_from_text_length (text : List Char) :
    (parse_points_from_text text).length ≤ max 1 (splitLines text).length := by
  unfold parse_points_from_text
  cases hp : (fromTextPass (splitLines text)).isEmpty with
  | true =>
    simp only [hp, if_true]
    exact le_trans (option_toList_length _) (le_max_left 1 _)
  | false =>
    simp only [hp, Bool.false_eq_true, if_false]
    exact le_trans (fromTextPass_length _) (le_max_right 1 _)

/-- Claim C8 (amended): the file channel hands the decoded file text to
the plain-decimal parser `parse_points_from_text` (first two numeric
tokens per line, whole-text fallback), not to the DMS-aware notation
parser, and each line yields at most one coordinate pair. -/
theorem C8_file_channel (st : Session) (text : String)
    (ha : st.awaiting = some "coords_file")
    (h1 : truthy st.coords_src = true) (h2 : truthy st.coords_dst = true)
    (h3 : truthy st.coords_out_mode_code = true) :
    (¬ parse_points_from_text text.data = [] →
      handle_document st text = DocAction.transform (parse_points_from_text text.data)) ∧
    (parse_points_from_text text.data = [] → handle_document st text = DocAction.noPoints) ∧
    (parse_points_from_text text.data).length ≤ max 1 (splitLines text.data).length := by
  refine ⟨?_, ?_, parse_points_from_text_length text.data⟩
  · intro hne
    simp only [handle_document, ha, h1, h2, h3]
    cases hpts : parse_points_from_text text.data with
    | nil => exact absurd hpts hne
    | cons a t => simp
  · intro hnil
    simp only [handle_document, ha, h1, h2, h3, hnil]
    simp

unseal Rat.mul Rat.inv Rat.add Rat.sub in
/-- Witness for C8: a decimal file body is transformed with the
plain-decimal extraction. -/
theorem C8_file_channel_witness :
    handle_document
      ⟨some "EPSG:4326", some "l1", some "EPSG:3857", some "l2", some "Файл CSV",
        some "csv", some "coords_file"⟩
      "12.5 7.25" = DocAction.transform [(25 / 2, 29 / 4)] := by
  have h := (C8_file_channel
    ⟨some "EPSG:4326", some "l1", some "EPSG:3857", some "l2", some "Файл CSV",
      some "csv", some "coords_file"⟩
    "12.5 7.25" rfl rfl rfl rfl).1 (by decide)
  rw [h]
  decide

unseal Rat.mul Rat.inv Rat.add Rat.sub in
/-- Counterexample for C8 as stated: on a DMS-style text the file channel
extraction differs from the DMS-aware notation parser output. -/
theorem C8_counterexample :
    parse_points_from_text "77 05 28 63 13 44".data = [(77, 5)] ∧
    parse_points_auto "77 05 28 63 13 44".data =
      Except.ok [(34691 / 450, 28453 / 450)] ∧
    ¬ ([((77 : ℚ), (5 : ℚ))] = [((34691 : ℚ) / 450, (28453 : ℚ) / 450)]) ∧
    handle_document
      ⟨some "EPSG:4326", some "l1", some "EPSG:3857", some "l2", some "Файл CSV",
        some "csv", some "coords_file"⟩
      "77 05 28 63 13 44" = DocAction.transform [(77, 5)] := by
  refine ⟨by decide, by decide, by decide, by decide⟩

/-- Claim C9 (amended): every file-mode output begins with the three
byte-order-marker bytes and its text starts with the header row N;X;Y
using the semicolon delimiter; the output filename is the hint with every
character other than word characters (letters, digits, underscore),
hyphen and period replaced by an underscore, suffixed to mark the
converted result. -/
theorem C9_csv_file (pts : List (ℚ × ℚ)) (hint : String) :
    (∃ rest : List Nat, make_csv_bytes pts = 0xEF :: 0xBB :: 0xBF :: rest) ∧
    (∃ rest : String, make_csv_string pts = "N;X;Y\r\n" ++ rest) ∧
    (outputFilename hint).data = (safe_name hint).data ++ "_converted.csv".data ∧
    (∀ i : Nat, (safe_name hint).data[i]? =
      (hint.data[i]?).map (fun c => if isFilenameKept c then c else '_')) ∧
    (hint.data.all isFilenameKept = true → safe_name hint = hint) := by
  refine ⟨⟨utf8Bytes (make_csv_string pts), rfl⟩,
          ⟨csvWrite (csvDataRows pts 1), rfl⟩, rfl, ?_, ?_⟩
  · intro i
    simp [safe_name, List.getElem?_map]
  · intro hall
    apply String.ext
    show hint.data.map (fun c => if isFilenameKept c then c else '_') = hint.data
    have hkeep : ∀ c ∈ hint.data, isFilenameKept c = true := List.all_eq_true.mp hall
    calc hint.data.map (fun c => if isFilenameKept c then c else '_')
        = hint.data.map id := by
          apply List.map_congr_left
          intro a ha
          simp [hkeep a ha]
      _ = hint.data := List.map_id hint.data

/-- Witness for C9: the byte-order marker, a fully kept hint, and a hint
with spaces and parentheses replaced. -/
theorem C9_csv_file_witness :
    (∃ rest : List Nat, make_csv_bytes [((1 : ℚ) / 2, -3)] = 0xEF :: 0xBB :: 0xBF :: rest) ∧
    safe_name "coords" = "coords" ∧
    safe_name "my coords(1).txt" = "my_coords_1_.txt" := by
  refine ⟨(C9_csv_file [((1 : ℚ) / 2, -3)] "coords").1,
          (C9_csv_file [((1 : ℚ) / 2, -3)] "coords").2.2.2.2 (by decide), by decide⟩

/-- Counterexample for C9 as stated: the hyphen and the period are not
alphanumeric yet survive the filename sanitization unreplaced. -/
theorem C9_counterexample :
    safe_name "a-b.txt" = "a-b.txt" ∧
    '-' ∈ "a-b.txt".data ∧
    ('-' : Char).isAlphanum = false := by
  refine ⟨by decide, by decide, by decide⟩

theorem dictGet_mem (u : List (String × UsageRec)) (key : String) (r : UsageRec)
    (h : dictGet u key = some r) : ∃ k, (k, r) ∈ u := by
  induction u with
  | nil => simp [dictGet] at h
  | cons p t ih =>
    obtain ⟨k, v⟩ := p
    by_cases hk : k = key
    · simp only [dictGet, if_pos hk] at h
      injection h with hv
      exact ⟨k, by rw [hv]; exact List.mem_cons_self _ _⟩
    · simp only [dictGet, if_neg hk] at h
      obtain ⟨k2, hm⟩ := ih h
      exact ⟨k2, List.mem_cons_of_mem _ hm⟩

theorem dictSet_mem (u : List (String × UsageRec)) (key : String) (v : UsageRec)
    (p : String × UsageRec) (h : p ∈ dictSet u key v) : p ∈ u ∨ p = (key, v) := by
  induction u with
  | nil =>
    simp only [dictSet] at h
    right
    simpa using h
  | cons q t ih =>
    obtain ⟨k, w⟩ := q
    by_cases hk : k = key
    · simp only [dictSet, if_pos hk] at h
      rcases List.mem_cons.mp h with h1 | h2
      · right
        exact h1
      · left
        exact List.mem_cons_of_mem _ h2
    · simp only [dictSet, if_neg hk] at h
      rcases List.mem_cons.mp h with h1 | h2
      · left
        rw [h1]
        exact List.mem_cons_self _ _
      · rcases ih h2 with h3 | h4
        · left
          exact List.mem_cons_of_mem _ h3
        · right
          exact h4

/-- Claim C10: for every user and state of the usage store, the stored
per-day count never exceeds the daily limit of 20; a denied check leaves
the store unchanged; and when the stored date differs from today, the
check restarts the daily count from 0 while keeping the accumulated
all-time total, then counts this request. -/
theorem C10_rate_limit (usage : List (String × UsageRec)) (key today : String) :
    ((∀ p ∈ usage, p.2.count ≤ DAILY_LIMIT) →
      ∀ p ∈ (check_and_increment usage key today).2, p.2.count ≤ DAILY_LIMIT) ∧
    ((check_and_increment usage key today).1.1 = false →
      (check_and_increment usage key today).2 = usage) ∧
    (∀ r : UsageRec, dictGet usage key = some r → ¬ r.date = today →
      usageDayRec (dictGet usage key) today = ⟨today, 0, r.total⟩ ∧
      (check_and_increment usage key today).1.1 = true ∧
      (check_and_increment usage key today).2 = dictSet usage key ⟨today, 1, r.total + 1⟩ ∧
      get_usage usage key today = (0, DAILY_LIMIT)) := by
  refine ⟨?_, ?_, ?_⟩
  · intro hinv p hp
    by_cases hlim : DAILY_LIMIT ≤ (usageDayRec (dictGet usage key) today).count
    · simp only [check_and_increment, if_pos hlim] at hp
      exact hinv p hp
    · simp only [check_and_increment, if_neg hlim] at hp
      rcases dictSet_mem _ _ _ _ hp with hm | he
      · exact hinv p hm
      · rw [he]
        simp only [DAILY_LIMIT] at hlim ⊢
        omega
  · intro hfalse
    by_cases hlim : DAILY_LIMIT ≤ (usageDayRec (dictGet usage key) today).count
    · simp only [check_and_increment, if_pos hlim]
    · simp only [check_and_increment, if_neg hlim] at hfalse
      exact absurd hfalse (by decide)
  · intro r hr hd
    have hud : usageDayRec (dictGet usage key) today = ⟨today, 0, r.total⟩ := by
      simp [usageDayRec, hr, hd]
    have hlim : ¬ DAILY_LIMIT ≤ (usageDayRec (dictGet usage key) today).count := by
      rw [hud]
      simp [DAILY_LIMIT]
    refine ⟨hud, ?_, ?_, ?_⟩
    · simp only [check_and_increment, if_neg hlim]
    · have hud2 : usageDayRec (some r) today = ⟨today, 0, r.total⟩ := by
        rw [← hr]
        exact hud
      simp [check_and_increment, hr, hud2, DAILY_LIMIT]
    · simp [get_usage, hr, hd]

/-- Witness for C10: a user whose stored record is from the previous day
with the daily count exhausted is allowed again, restarted at count 1
with the total carried over, while the read-only view reports zero. -/
theorem C10_rate_limit_witness :
    (check_and_increment [("7", ⟨"2026-10-11", 20, 99⟩)] "7" "2026-10-12").1.1 = true ∧
    (check_and_increment [("7", ⟨"2026-10-11", 20, 99⟩)] "7" "2026-10-12").2 =
      [("7", ⟨"2026-10-12", 1, 100⟩)] ∧
    get_usage [("7", ⟨"2026-10-11", 20, 99⟩)] "7" "2026-10-12" = (0, 20) := by
  have h := (C10_rate_limit [("7", ⟨"2026-10-11", 20, 99⟩)] "7" "2026-10-12").2.2
    ⟨"2026-10-11", 20, 99⟩ (by decide) (by decide)
  refine ⟨h.2.1, ?_, ?_⟩
  · rw [h.2.2.1]
    decide
  · rw [h.2.2.2]
    decide
